import Mathlib

/-!
Verification of the Conway Game-of-Life engine in `src/conway_game.py`
(class `ConwayGameOfLife`): board construction and validation, the rule
lookup table, neighbor windows over the zero-padded buffer, and the
generation stepper `run_iterations`.

Conventions of the embedding:
* A numpy 2-D array of cell values is a `List (List Nat)` in row-major
  order; `cellAt g i j` is `g[i][j]` with reads outside the allocated
  buffer returning the default `0` (such reads never occur on the paths
  we verify; boundedness is proved where the claims require it).
* The padded buffer `expanded_board` has shape `(m+2) × (n+2)`; the
  logical cell `(r, c)` lives at padded position `(r+1, c+1)`.
* The constructor's input is an `Option NDArray`: `none` stands for a
  Python value that is not a `numpy.ndarray` at all, and `NDArray`
  distinguishes 0-d, 1-d and 2-d arrays (the ranks exercised by the
  spec's type/shape discussion), with `Int` entries since numpy arrays
  may hold arbitrary integers before validation.
* Python's `for i in range(n)` with an `int` argument executes
  `max n 0` iterations; `run_iterations_py` models the `int` signature.
-/

namespace Conway

/-- `g[i][j]` with default `0`, the cell read used throughout. -/
def cellAt (g : List (List Nat)) (i j : Nat) : Nat :=
  (g.getD i []).getD j 0

/-- Row 0 of `self.lookup`: next status of a currently dead cell,
indexed by the number of alive neighbors. -/
def lookupDead : List Nat := [0, 0, 0, 1, 0, 0, 0, 0, 0]

/-- Row 1 of `self.lookup`: next status of a currently alive cell,
indexed by the number of alive neighbors. -/
def lookupAlive : List Nat := [0, 0, 1, 1, 0, 0, 0, 0, 0]

/-- `self.lookup = np.asarray([[0,0,0,1,0,0,0,0,0],[0,0,1,1,0,0,0,0,0]])`. -/
def lookup : List (List Nat) := [lookupDead, lookupAlive]

/-- `get_lookup(cell_status, num_neighbors) = self.lookup[cell_status, num_neighbors]`. -/
def get_lookup (cell_status num_neighbors : Nat) : Nat :=
  (lookup.getD cell_status []).getD num_neighbors 0

/-- A `numpy.ndarray` of rank 0, 1 or 2 handed to the constructor. -/
inductive NDArray where
  | scalar (v : Int)
  | vec (xs : List Int)
  | mat (rows : List (List Int))

/-- `board.shape`. -/
def ndShape : NDArray → List Nat
  | NDArray.scalar _ => []
  | NDArray.vec xs => [xs.length]
  | NDArray.mat rows => [rows.length, (rows.headD []).length]

/-- The flat list of entries of the array, as scanned by `np.isin`. -/
def ndValues : NDArray → List Int
  | NDArray.scalar v => [v]
  | NDArray.vec xs => xs
  | NDArray.mat rows => rows.flatten

/-- Well-formedness that numpy guarantees before the constructor is ever
reached: a rank-2 integer ndarray is rectangular. -/
def ndWF : Option NDArray → Bool
  | some (NDArray.mat rows) => rows.all (fun row => row.length == (rows.headD []).length)
  | _ => true

/-- The distinct failure modes of `ConwayGameOfLife.__init__`: the three
explicit `raise NotImplementedError` sites (distinguished by their
messages: not an ndarray / smaller than 2x2 / entries not 0 or 1), and
the `IndexError` that `self.expanded_board[board_slice] = board` raises
when the validated array is not two-dimensional. -/
inductive ConwayError where
  | invalidType
  | invalidShape
  | invalidValue
  | indexError
deriving DecidableEq

/-- The state held by a constructed `ConwayGameOfLife` object:
`self.board` is the `m × n` interior view of `self.expanded_board`,
so the padded buffer together with the logical dimensions is the whole
state. -/
structure Board where
  m : Nat
  n : Nat
  expanded_board : List (List Nat)
deriving DecidableEq

/-- The padded `(m+2) × (n+2)` buffer: `np.zeros(expanded_shape)` with
the input copied into the interior slice `[1:-1, 1:-1]`. Validated
entries are 0 or 1, on which the `uint8` cast is `Int.toNat`. -/
def mkExpanded (rows : List (List Int)) (n : Nat) : List (List Nat) :=
  List.replicate (n + 2) 0 ::
    (rows.map (fun row => (0 :: row.map Int.toNat) ++ [0]) ++ [List.replicate (n + 2) 0])

/-- `ConwayGameOfLife.__init__`: type check (`isinstance(board, np.ndarray)`),
shape check (`any(x < 2 for x in board.shape)`), value check
(`np.all(np.isin(board, [0,1]))`), then allocation of the padded buffer
with the input copied into its interior — an operation that raises
`IndexError` when the array is not rank 2. -/
def construct : Option NDArray → Except ConwayError Board
  | none => Except.error ConwayError.invalidType
  | some a =>
    if (ndShape a).any (fun d => decide (d < 2)) then
      Except.error ConwayError.invalidShape
    else if !((ndValues a).all (fun v => decide (v = 0 ∨ v = 1))) then
      Except.error ConwayError.invalidValue
    else
      match a with
      | NDArray.mat rows =>
          Except.ok (Board.mk rows.length (rows.headD []).length
            (mkExpanded rows (rows.headD []).length))
      | NDArray.scalar _ => Except.error ConwayError.indexError
      | NDArray.vec _ => Except.error ConwayError.indexError

/-- Sum of the 3×3 window of the padded buffer whose top-left corner is
padded position `(r, c)` — the window centered on logical cell `(r, c)`.
This is `np.sum(all_neighbors, axis=(-2,-1))` at `(r, c)`. -/
def windowSum (eb : List (List Nat)) (r c : Nat) : Nat :=
  cellAt eb r c + cellAt eb r (c + 1) + cellAt eb r (c + 2) +
  cellAt eb (r + 1) c + cellAt eb (r + 1) (c + 1) + cellAt eb (r + 1) (c + 2) +
  cellAt eb (r + 2) c + cellAt eb (r + 2) (c + 1) + cellAt eb (r + 2) (c + 2)

/-- `all_num_neighbors = np.sum(all_neighbors, axis=(-2,-1)) - self.board`
at logical cell `(r, c)`: the 3×3 window sum minus the cell's own value
(exact in `Nat` since the window contains the cell). -/
def num_neighbors (eb : List (List Nat)) (r c : Nat) : Nat :=
  windowSum eb r c - cellAt eb (r + 1) (c + 1)

/-- One cell of `np.where(self.board, self.lookup[1][counts], self.lookup[0][counts])`:
`np.where` selects the alive row exactly when the current value is nonzero. -/
def stepCell (eb : List (List Nat)) (r c : Nat) : Nat :=
  if cellAt eb (r + 1) (c + 1) ≠ 0 then lookupAlive.getD (num_neighbors eb r c) 0
  else lookupDead.getD (num_neighbors eb r c) 0

/-- `get_all_neighbors()`: the `(m, n, 3, 3)` strided view whose entry
`[r][c][i][j]` is `expanded_board[r+i][c+j]` (strides of the view are the
buffer's strides repeated, so both pairs of axes walk the same buffer). -/
def get_all_neighbors (m n : Nat) (eb : List (List Nat)) :
    List (List (List (List Nat))) :=
  (List.range m).map (fun r =>
    (List.range n).map (fun c =>
      (List.range 3).map (fun i =>
        (List.range 3).map (fun j => cellAt eb (r + i) (c + j)))))

/-- Entry `[r][c][i][j]` of `get_all_neighbors()`. -/
def neighborEntry (m n : Nat) (eb : List (List Nat)) (r c i j : Nat) : Nat :=
  (((((get_all_neighbors m n eb).getD r []).getD c []).getD i []).getD j 0)

/-- One loop body of `run_iterations`: the right-hand side
`np.where(...)` is fully materialized from the pre-update buffer, then
assigned into the interior view `self.board[:]`; border cells are not
written. Padded position `(i, j)` is interior exactly when
`1 ≤ i ≤ m` and `1 ≤ j ≤ n`, and then holds `stepCell` of logical cell
`(i-1, j-1)`. -/
def run_iteration (m n : Nat) (eb : List (List Nat)) : List (List Nat) :=
  (List.range (m + 2)).map (fun i =>
    (List.range (n + 2)).map (fun j =>
      if 1 ≤ i ∧ i ≤ m ∧ 1 ≤ j ∧ j ≤ n then stepCell eb (i - 1) (j - 1)
      else cellAt eb i j))

/-- `run_iterations(n)` for a nonnegative count: `for i in range(n)`
applies the loop body `n` times in order. -/
def run_iterations (m n : Nat) (eb : List (List Nat)) : Nat → List (List Nat)
  | 0 => eb
  | Nat.succ k => run_iterations m n (run_iteration m n eb) k

/-- `run_iterations(n)` at its Python signature, where `n : int` may be
negative: `range(n)` has `max n 0` elements. -/
def run_iterations_py (m n : Nat) (eb : List (List Nat)) (gens : Int) :
    List (List Nat) :=
  run_iterations m n eb gens.toNat

/-- The invariant of a live `ConwayGameOfLife` object: the padded buffer
has shape `(m+2) × (n+2)`, every cell is 0 or 1, and the whole border
ring is 0. -/
def validPadded (m n : Nat) (eb : List (List Nat)) : Prop :=
  eb.length = m + 2 ∧
  (∀ i < m + 2, (eb.getD i []).length = n + 2) ∧
  (∀ i < m + 2, ∀ j < n + 2, cellAt eb i j ≤ 1) ∧
  (∀ i < m + 2, ∀ j < n + 2, (i = 0 ∨ i = m + 1 ∨ j = 0 ∨ j = n + 1) →
    cellAt eb i j = 0)

instance validPadded.instDecidable (m n : Nat) (eb : List (List Nat)) :
    Decidable (validPadded m n eb) := by
  unfold validPadded
  infer_instance

/-- Spec-side definition (for the refinement claim): the number of alive
cells among the eight neighbors of logical cell `(r, c)` — the 3×3
window without its center. -/
def specNeighbors (eb : List (List Nat)) (r c : Nat) : Nat :=
  cellAt eb r c + cellAt eb r (c + 1) + cellAt eb r (c + 2) +
  cellAt eb (r + 1) c + cellAt eb (r + 1) (c + 2) +
  cellAt eb (r + 2) c + cellAt eb (r + 2) (c + 1) + cellAt eb (r + 2) (c + 2)

/-- Spec-side definition (for the refinement claim): the standard
Game-of-Life successor of logical cell `(r, c)` — an alive cell survives
with exactly 2 or 3 alive neighbors, a dead cell is born with exactly 3. -/
def specSuccessorCell (eb : List (List Nat)) (r c : Nat) : Nat :=
  if cellAt eb (r + 1) (c + 1) = 1 then
    if specNeighbors eb r c = 2 ∨ specNeighbors eb r c = 3 then 1 else 0
  else
    if specNeighbors eb r c = 3 then 1 else 0

/-! ### Indexing helper lemmas -/

/-- `getD` on a mapped range: the generated table reads back the
generating function inside the range and the default outside. -/
theorem getD_map_range {α : Type} (f : Nat → α) (k i : Nat) (d : α) :
    ((List.range k).map f).getD i d = if i < k then f i else d := by
  by_cases h : i < k
  · rw [List.getD_eq_getElem?_getD, List.getElem?_map, List.getElem?_range h, if_pos h]
    rfl
  · have hlen : ((List.range k).map f).length ≤ i := by
      simpa using Nat.le_of_not_lt h
    rw [List.getD_eq_default _ _ hlen, if_neg h]

/-- `getD` commutes with `map` inside the bounds. -/
theorem getD_map_of_lt {α β : Type} (f : α → β) (l : List α) (i : Nat) (d : α)
    (d2 : β) (h : i < l.length) : (l.map f).getD i d2 = f (l.getD i d) := by
  induction l generalizing i with
  | nil => simp at h
  | cons a l ih =>
    cases i with
    | zero => rfl
    | succ i =>
      rw [List.map_cons, List.getD_cons_succ, List.getD_cons_succ]
      exact ih i (by simpa using Nat.lt_of_succ_lt_succ h)

/-- An in-bounds `getD` read is a member of the list. -/
theorem getD_mem_of_lt {α : Type} (l : List α) (i : Nat) (d : α)
    (h : i < l.length) : l.getD i d ∈ l := by
  induction l generalizing i with
  | nil => simp at h
  | cons a l ih =>
    cases i with
    | zero => exact List.mem_cons_self a l
    | succ i =>
      rw [List.getD_cons_succ]
      exact List.mem_cons_of_mem a (ih i (by simpa using Nat.lt_of_succ_lt_succ h))

/-- Reading a row of all zeros gives zero at every index. -/
theorem replicate_zero_getD (k j : Nat) : (List.replicate k (0 : Nat)).getD j 0 = 0 := by
  induction k generalizing j with
  | zero => rfl
  | succ k ih =>
    cases j with
    | zero => rfl
    | succ j =>
      rw [List.replicate_succ, List.getD_cons_succ]
      exact ih j

/-- Reading past the rows of a grid gives the all-default row. -/
theorem cellAt_zero_of_row_ge (g : List (List Nat)) (i j : Nat)
    (h : g.length ≤ i) : cellAt g i j = 0 := by
  unfold cellAt
  rw [List.getD_eq_default _ _ h]
  cases j <;> rfl

/-! ### The rule table, pointwise -/

/-- The dead row of the lookup table realizes the birth rule at every
index (out-of-range indices read the default 0, which also matches). -/
theorem lookupDead_getD (k : Nat) :
    lookupDead.getD k 0 = if k = 3 then 1 else 0 := by
  unfold lookupDead
  match k with
  | 0 => rfl
  | 1 => rfl
  | 2 => rfl
  | 3 => rfl
  | 4 => rfl
  | 5 => rfl
  | 6 => rfl
  | 7 => rfl
  | 8 => rfl
  | (k + 9) =>
    rw [List.getD_eq_default _ _ (by simp), if_neg (by omega)]

/-- The alive row of the lookup table realizes the survival rule at
every index. -/
theorem lookupAlive_getD (k : Nat) :
    lookupAlive.getD k 0 = if k = 2 ∨ k = 3 then 1 else 0 := by
  unfold lookupAlive
  match k with
  | 0 => rfl
  | 1 => rfl
  | 2 => rfl
  | 3 => rfl
  | 4 => rfl
  | 5 => rfl
  | 6 => rfl
  | 7 => rfl
  | 8 => rfl
  | (k + 9) =>
    rw [List.getD_eq_default _ _ (by simp), if_neg (by omega)]

/-- Whatever the neighbor count, the stepper writes a binary value. -/
theorem stepCell_le_one (eb : List (List Nat)) (r c : Nat) :
    stepCell eb r c ≤ 1 := by
  unfold stepCell
  by_cases h : cellAt eb (r + 1) (c + 1) ≠ 0
  · rw [if_pos h, lookupAlive_getD]
    split <;> omega
  · rw [if_neg h, lookupDead_getD]
    split <;> omega

/-! ### The valid-board invariant -/

/-- Under the invariant, every read anywhere is binary. -/
theorem valid_cell_le_one {m n : Nat} {eb : List (List Nat)}
    (hv : validPadded m n eb) (i j : Nat) : cellAt eb i j ≤ 1 := by
  obtain ⟨hlen, hrow, hbin, _⟩ := hv
  by_cases hi : i < m + 2
  · by_cases hj : j < n + 2
    · exact hbin i hi j hj
    · unfold cellAt
      have hle : (eb.getD i []).length ≤ j := by rw [hrow i hi]; omega
      rw [List.getD_eq_default _ _ hle]
      exact Nat.zero_le 1
  · rw [cellAt_zero_of_row_ge eb i j (by omega)]
    exact Nat.zero_le 1

/-- Under the invariant, every read outside the logical interior
(border ring or beyond the buffer) is zero. -/
theorem valid_cell_outside {m n : Nat} {eb : List (List Nat)}
    (hv : validPadded m n eb) (i j : Nat)
    (h : ¬(1 ≤ i ∧ i ≤ m ∧ 1 ≤ j ∧ j ≤ n)) : cellAt eb i j = 0 := by
  obtain ⟨hlen, hrow, _, hbord⟩ := hv
  by_cases hi : i < m + 2
  · by_cases hj : j < n + 2
    · exact hbord i hi j hj (by omega)
    · unfold cellAt
      have hle : (eb.getD i []).length ≤ j := by rw [hrow i hi]; omega
      rw [List.getD_eq_default _ _ hle]
  · exact cellAt_zero_of_row_ge eb i j (by omega)

/-! ### One generation step -/

/-- Pointwise reading of the post-step buffer: interior cells hold the
stepped value of the pre-step buffer, everything else is carried over. -/
theorem cellAt_run_iteration (m n : Nat) (eb : List (List Nat)) (i j : Nat) :
    cellAt (run_iteration m n eb) i j =
      if i < m + 2 then
        if j < n + 2 then
          if 1 ≤ i ∧ i ≤ m ∧ 1 ≤ j ∧ j ≤ n then stepCell eb (i - 1) (j - 1)
          else cellAt eb i j
        else 0
      else 0 := by
  unfold cellAt run_iteration
  rw [getD_map_range]
  by_cases hi : i < m + 2
  · rw [if_pos hi, if_pos hi, getD_map_range]
    rfl
  · rw [if_neg hi, if_neg hi]
    cases j <;> rfl

/-- The step preserves the valid-board invariant: shape is rebuilt
identically, written values come from the (binary) rule table, and the
border is carried over unchanged. -/
theorem validPadded_run_iteration {m n : Nat} {eb : List (List Nat)}
    (hv : validPadded m n eb) : validPadded m n (run_iteration m n eb) := by
  refine ⟨?_, ?_, ?_, ?_⟩
  · unfold run_iteration
    simp
  · intro i hi
    unfold run_iteration
    rw [getD_map_range, if_pos hi]
    simp
  · intro i hi j hj
    rw [cellAt_run_iteration, if_pos hi, if_pos hj]
    by_cases hint : 1 ≤ i ∧ i ≤ m ∧ 1 ≤ j ∧ j ≤ n
    · rw [if_pos hint]
      exact stepCell_le_one eb (i - 1) (j - 1)
    · rw [if_neg hint]
      exact valid_cell_le_one hv i j
  · intro i hi j hj hbord
    rw [cellAt_run_iteration, if_pos hi, if_pos hj]
    have hnot : ¬(1 ≤ i ∧ i ≤ m ∧ 1 ≤ j ∧ j ≤ n) := by omega
    rw [if_neg hnot]
    exact valid_cell_outside hv i j hnot

/-- The invariant is preserved across any number of generations. -/
theorem validPadded_run_iterations {m n : Nat} {eb : List (List Nat)}
    (hv : validPadded m n eb) (k : Nat) :
    validPadded m n (run_iterations m n eb k) := by
  induction k generalizing eb with
  | zero => exact hv
  | succ k ih => exact ih (validPadded_run_iteration hv)

/-- The 3×3 window sum is the eight-neighbor count plus the center. -/
theorem windowSum_split (eb : List (List Nat)) (r c : Nat) :
    windowSum eb r c = specNeighbors eb r c + cellAt eb (r + 1) (c + 1) := by
  unfold windowSum specNeighbors
  omega

/-- Subtracting the center from the window sum yields exactly the
eight-neighbor count. -/
theorem num_neighbors_eq_spec (eb : List (List Nat)) (r c : Nat) :
    num_neighbors eb r c = specNeighbors eb r c := by
  unfold num_neighbors
  rw [windowSum_split]
  omega

/-- On a binary cell, the `np.where` dispatch agrees with indexing the
lookup table by the cell's status. -/
theorem stepCell_eq_get_lookup (eb : List (List Nat)) (r c : Nat)
    (h : cellAt eb (r + 1) (c + 1) ≤ 1) :
    stepCell eb r c = get_lookup (cellAt eb (r + 1) (c + 1)) (num_neighbors eb r c) := by
  have h0 : cellAt eb (r + 1) (c + 1) = 0 ∨ cellAt eb (r + 1) (c + 1) = 1 := by omega
  unfold stepCell get_lookup lookup
  rcases h0 with hc | hc <;> rw [hc] <;> simp

/-- On a valid board, stepping a cell computes the standard
Game-of-Life successor. -/
theorem stepCell_eq_spec {m n : Nat} {eb : List (List Nat)}
    (hv : validPadded m n eb) (r c : Nat) :
    stepCell eb r c = specSuccessorCell eb r c := by
  have h1 : cellAt eb (r + 1) (c + 1) ≤ 1 := valid_cell_le_one hv (r + 1) (c + 1)
  have h0 : cellAt eb (r + 1) (c + 1) = 0 ∨ cellAt eb (r + 1) (c + 1) = 1 := by omega
  unfold stepCell specSuccessorCell
  rw [num_neighbors_eq_spec]
  rcases h0 with hc | hc
  · rw [hc, if_neg (by omega), if_neg (by omega)]
    exact lookupDead_getD _
  · rw [hc, if_pos (by omega), if_pos rfl]
    exact lookupAlive_getD _

/-! ### Construction -/

/-- Reading a padded row: index 0 and indexes past the original row read
the padding zeros; interior index `j` reads entry `j - 1` of the input
row, cast to `Nat`. -/
theorem padRow_getD (row : List Int) (j : Nat) :
    ((0 :: row.map Int.toNat) ++ [0]).getD j 0 =
      if 1 ≤ j ∧ j ≤ row.length then ((row.getD (j - 1) 0)).toNat else 0 := by
  cases j with
  | zero => rfl
  | succ k =>
    rw [List.cons_append, List.getD_cons_succ]
    by_cases hk : k < row.length
    · rw [List.getD_append _ _ _ _ (by simpa using hk)]
      rw [getD_map_of_lt Int.toNat row k 0 0 hk]
      rw [if_pos (by omega)]
      rfl
    · rw [List.getD_append_right _ _ _ _ (by simpa using Nat.le_of_not_lt hk)]
      rw [if_neg (by omega)]
      rcases Nat.exists_eq_add_of_le (Nat.le_of_not_lt hk) with ⟨t, ht⟩
      subst ht
      rw [List.length_map]
      cases t <;> simp

/-- Reading a row of the freshly padded buffer. -/
theorem mkExpanded_row (rows : List (List Int)) (n i : Nat) :
    (mkExpanded rows n).getD i [] =
      if i = 0 ∨ i = rows.length + 1 then List.replicate (n + 2) 0
      else if i ≤ rows.length then (0 :: (rows.getD (i - 1) []).map Int.toNat) ++ [0]
      else [] := by
  unfold mkExpanded
  cases i with
  | zero => rfl
  | succ k =>
    rw [List.getD_cons_succ]
    by_cases hk : k < rows.length
    · rw [List.getD_append _ _ _ _ (by simpa using hk)]
      rw [getD_map_of_lt _ rows k [] _ hk]
      rw [if_neg (by omega), if_pos (by omega)]
      simp
    · rw [List.getD_append_right _ _ _ _ (by simpa using Nat.le_of_not_lt hk)]
      rcases Nat.exists_eq_add_of_le (Nat.le_of_not_lt hk) with ⟨t, ht⟩
      subst ht
      rw [List.length_map]
      cases t with
      | zero => rw [if_pos (by omega)]; simp
      | succ t =>
        rw [if_neg (by omega), if_neg (by omega)]
        simp

/-- Reading a cell of the freshly padded buffer: the interior reads the
input grid shifted by one, everything else is zero. -/
theorem cellAt_mkExpanded (rows : List (List Int)) (n i j : Nat) :
    cellAt (mkExpanded rows n) i j =
      if 1 ≤ i ∧ i ≤ rows.length ∧ 1 ≤ j ∧ j ≤ (rows.getD (i - 1) []).length then
        ((rows.getD (i - 1) []).getD (j - 1) 0).toNat
      else 0 := by
  unfold cellAt
  rw [mkExpanded_row]
  by_cases h0 : i = 0 ∨ i = rows.length + 1
  · rw [if_pos h0, replicate_zero_getD, if_neg (by omega)]
  · rw [if_neg h0]
    by_cases h1 : i ≤ rows.length
    · rw [if_pos h1, padRow_getD]
      by_cases h2 : 1 ≤ j ∧ j ≤ (rows.getD (i - 1) []).length
      · rw [if_pos h2, if_pos (by omega)]
      · rw [if_neg h2, if_neg (by omega)]
    · rw [if_neg h1, if_neg (by omega)]
      cases j <;> rfl

/-- The padded buffer built from a rectangular binary grid satisfies
the valid-board invariant. -/
theorem mkExpanded_valid (rows : List (List Int))
    (hwf : ∀ row ∈ rows, row.length = (rows.headD []).length)
    (hval : ∀ v ∈ rows.flatten, v = 0 ∨ v = 1) :
    validPadded rows.length (rows.headD []).length
      (mkExpanded rows (rows.headD []).length) := by
  refine ⟨?_, ?_, ?_, ?_⟩
  · unfold mkExpanded
    simp
  · intro i hi
    rw [mkExpanded_row]
    by_cases h0 : i = 0 ∨ i = rows.length + 1
    · rw [if_pos h0]
      simp
    · rw [if_neg h0, if_pos (by omega)]
      have hmem : rows.getD (i - 1) [] ∈ rows :=
        getD_mem_of_lt rows (i - 1) [] (by omega)
      have hl := hwf _ hmem
      simp only [List.cons_append, List.length_cons, List.length_append,
        List.length_map, List.length_nil]
      omega
  · intro i hi j hj
    rw [cellAt_mkExpanded]
    by_cases h2 : 1 ≤ i ∧ i ≤ rows.length ∧ 1 ≤ j ∧ j ≤ (rows.getD (i - 1) []).length
    · rw [if_pos h2]
      have hmem : rows.getD (i - 1) [] ∈ rows :=
        getD_mem_of_lt rows (i - 1) [] (by omega)
      have hvmem : (rows.getD (i - 1) []).getD (j - 1) 0 ∈ rows.getD (i - 1) [] :=
        getD_mem_of_lt _ (j - 1) 0 (by omega)
      have hv01 : (rows.getD (i - 1) []).getD (j - 1) 0 = 0 ∨
          (rows.getD (i - 1) []).getD (j - 1) 0 = 1 :=
        hval _ (List.mem_flatten.mpr ⟨rows.getD (i - 1) [], hmem, hvmem⟩)
      rcases hv01 with h | h <;> rw [h] <;> omega
    · rw [if_neg h2]
      omega
  · intro i hi j hj hbord
    rw [cellAt_mkExpanded]
    by_cases h1 : 1 ≤ i ∧ i ≤ rows.length
    · have hmem : rows.getD (i - 1) [] ∈ rows :=
        getD_mem_of_lt rows (i - 1) [] (by omega)
      have hlen : (rows.getD (i - 1) []).length = (rows.headD []).length :=
        hwf _ hmem
      rw [if_neg (by omega)]
    · rw [if_neg (by omega)]

/-- Evaluation of the constructor on a 2-d array: shape is checked
before values, and passing both produces the object with the padded
buffer. -/
theorem construct_mat_eq (rows : List (List Int)) :
    construct (some (NDArray.mat rows)) =
      if rows.length < 2 ∨ (rows.headD []).length < 2 then
        Except.error ConwayError.invalidShape
      else if ¬(∀ v ∈ rows.flatten, v = 0 ∨ v = 1) then
        Except.error ConwayError.invalidValue
      else
        Except.ok (Board.mk rows.length (rows.headD []).length
          (mkExpanded rows (rows.headD []).length)) := by
  have hred : construct (some (NDArray.mat rows)) =
      (if ([rows.length, (rows.headD []).length].any fun d => decide (d < 2)) = true then
        Except.error ConwayError.invalidShape
      else if (!(rows.flatten.all fun v => decide (v = 0 ∨ v = 1))) = true then
        Except.error ConwayError.invalidValue
      else
        Except.ok (Board.mk rows.length (rows.headD []).length
          (mkExpanded rows (rows.headD []).length))) := rfl
  rw [hred]
  by_cases h1 : rows.length < 2 ∨ (rows.headD []).length < 2
  · rw [if_pos (by simpa using h1), if_pos h1]
  · rw [if_neg (by simpa using h1), if_neg h1]
    by_cases h2 : ∀ v ∈ rows.flatten, v = 0 ∨ v = 1
    · have hb : (rows.flatten.all fun v => decide (v = 0 ∨ v = 1)) = true := by
        rw [List.all_eq_true]
        intro v hv
        exact decide_eq_true (h2 v hv)
      rw [if_neg (by rw [hb]; decide), if_neg (not_not_intro h2)]
    · have hb : (rows.flatten.all fun v => decide (v = 0 ∨ v = 1)) = false := by
        cases hall : rows.flatten.all fun v => decide (v = 0 ∨ v = 1) with
        | false => rfl
        | true =>
          exact absurd (fun v hv => of_decide_eq_true (List.all_eq_true.mp hall v hv)) h2
      rw [if_pos (by rw [hb]; decide), if_pos h2]

/-- Construction succeeds only on rank-2 arrays: scalars and vectors
always produce an error (named or the late `IndexError`). -/
theorem construct_ok_mat (a : NDArray) (b : Board)
    (h : construct (some a) = Except.ok b) : ∃ rows, a = NDArray.mat rows := by
  cases a with
  | mat rows => exact ⟨rows, rfl⟩
  | scalar v =>
    have h2 : (if (!([v].all fun x => decide (x = 0 ∨ x = 1))) = true then
        Except.error ConwayError.invalidValue
      else Except.error ConwayError.indexError) = Except.ok b := h
    split at h2
    · exact Except.noConfusion h2
    · exact Except.noConfusion h2
  | vec xs =>
    have h2 : (if ([xs.length].any fun d => decide (d < 2)) = true then
        Except.error ConwayError.invalidShape
      else if (!(xs.all fun x => decide (x = 0 ∨ x = 1))) = true then
        Except.error ConwayError.invalidValue
      else Except.error ConwayError.indexError) = Except.ok b := h
    split at h2
    · exact Except.noConfusion h2
    · split at h2
      · exact Except.noConfusion h2
      · exact Except.noConfusion h2

/-- A successful construction establishes the valid-board invariant,
with the logical dimensions taken from the input grid. -/
theorem construct_validPadded (inp : Option NDArray) (b : Board)
    (hwf : ndWF inp = true) (h : construct inp = Except.ok b) :
    validPadded b.m b.n b.expanded_board := by
  cases inp with
  | none => exact Except.noConfusion h
  | some a =>
    obtain ⟨rows, rfl⟩ := construct_ok_mat a b h
    rw [construct_mat_eq] at h
    have hwfb : rows.all (fun row => row.length == (rows.headD []).length) = true := hwf
    have hwf2 : ∀ row ∈ rows, row.length = (rows.headD []).length := by
      intro row hrow
      have hb := List.all_eq_true.mp hwfb row hrow
      simpa using hb
    split at h
    · exact Except.noConfusion h
    · split at h
      · exact Except.noConfusion h
      · rename_i hsh hvl
        have hval : ∀ v ∈ rows.flatten, v = 0 ∨ v = 1 := not_not.mp hvl
        injection h with hb
        subst hb
        exact mkExpanded_valid rows hwf2 hval

/-! ### The claims -/

/-- C1: one invocation of the generation step updates every logical cell
`(r, c)` to `rule_table[current_status][alive_neighbor_count]`, where the
count is the 3×3 window sum minus the cell's own value, all reads taken
from the pre-update grid (the right-hand sides depend only on the prior
buffer `eb`); the result equals the standard Game-of-Life successor. -/
theorem claim_C1 (m n : Nat) (eb : List (List Nat)) (hv : validPadded m n eb)
    (r : Nat) (hr : r < m) (c : Nat) (hc : c < n) :
    cellAt (run_iteration m n eb) (r + 1) (c + 1) =
      get_lookup (cellAt eb (r + 1) (c + 1)) (num_neighbors eb r c) ∧
    cellAt (run_iteration m n eb) (r + 1) (c + 1) = specSuccessorCell eb r c := by
  have hcell : cellAt (run_iteration m n eb) (r + 1) (c + 1) = stepCell eb r c := by
    rw [cellAt_run_iteration, if_pos (by omega), if_pos (by omega), if_pos (by omega)]
    simp
  constructor
  · rw [hcell]
    exact stepCell_eq_get_lookup eb r c (valid_cell_le_one hv (r + 1) (c + 1))
  · rw [hcell]
    exact stepCell_eq_spec hv r c

/-- C1 witness: the vertical blinker, cell `(1, 0)`. -/
theorem claim_C1_witness :
    cellAt (run_iteration 3 3
        [[0,0,0,0,0],[0,0,1,0,0],[0,0,1,0,0],[0,0,1,0,0],[0,0,0,0,0]]) 2 1 =
      get_lookup
        (cellAt [[0,0,0,0,0],[0,0,1,0,0],[0,0,1,0,0],[0,0,1,0,0],[0,0,0,0,0]] 2 1)
        (num_neighbors
          [[0,0,0,0,0],[0,0,1,0,0],[0,0,1,0,0],[0,0,1,0,0],[0,0,0,0,0]] 1 0) ∧
    cellAt (run_iteration 3 3
        [[0,0,0,0,0],[0,0,1,0,0],[0,0,1,0,0],[0,0,1,0,0],[0,0,0,0,0]]) 2 1 =
      specSuccessorCell
        [[0,0,0,0,0],[0,0,1,0,0],[0,0,1,0,0],[0,0,1,0,0],[0,0,0,0,0]] 1 0 :=
  claim_C1 3 3 [[0,0,0,0,0],[0,0,1,0,0],[0,0,1,0,0],[0,0,1,0,0],[0,0,0,0,0]]
    (by decide) 1 (by decide) 0 (by decide)

/-- C2: every cell of a constructed board remains binary after any
number of generations, because the stepper only writes rule-table
values. -/
theorem claim_C2 (inp : Option NDArray) (b : Board) (hwf : ndWF inp = true)
    (h : construct inp = Except.ok b) (k i j : Nat) :
    cellAt (run_iterations b.m b.n b.expanded_board k) i j = 0 ∨
    cellAt (run_iterations b.m b.n b.expanded_board k) i j = 1 := by
  have hv := validPadded_run_iterations (construct_validPadded inp b hwf h) k
  have hle := valid_cell_le_one hv i j
  omega

/-- C2 witness: a 2×2 board after one generation, at cell `(1, 1)`. -/
theorem claim_C2_witness :
    cellAt (run_iterations 2 2 (mkExpanded [[0,1],[1,0]] 2) 1) 1 1 = 0 ∨
    cellAt (run_iterations 2 2 (mkExpanded [[0,1],[1,0]] 2) 1) 1 1 = 1 :=
  claim_C2 (some (NDArray.mat [[0,1],[1,0]]))
    (Board.mk 2 2 (mkExpanded [[0,1],[1,0]] 2)) rfl rfl 1 1 1

/-- C3: the padded border ring (padded row 0, row `m+1`, column 0,
column `n+1`) is zero immediately after construction (`k = 0`) and after
any number of generations. -/
theorem claim_C3 (inp : Option NDArray) (b : Board) (hwf : ndWF inp = true)
    (h : construct inp = Except.ok b) (k i j : Nat)
    (hbord : i = 0 ∨ i = b.m + 1 ∨ j = 0 ∨ j = b.n + 1) :
    cellAt (run_iterations b.m b.n b.expanded_board k) i j = 0 := by
  have hv := validPadded_run_iterations (construct_validPadded inp b hwf h) k
  exact valid_cell_outside hv i j (by omega)

/-- C3 witness: a border corner of a 2×2 board after two generations. -/
theorem claim_C3_witness :
    cellAt (run_iterations 2 2 (mkExpanded [[0,1],[1,0]] 2) 2) 0 1 = 0 :=
  claim_C3 (some (NDArray.mat [[0,1],[1,0]]))
    (Board.mk 2 2 (mkExpanded [[0,1],[1,0]] 2)) rfl rfl 2 0 1 (Or.inl rfl)

/-- C4: the rule table is the fixed constant
`[[0,0,0,1,0,0,0,0,0],[0,0,1,1,0,0,0,0,0]]`, and `get_lookup` realizes
birth on exactly 3 neighbors and survival on exactly 2 or 3. -/
theorem claim_C4 :
    lookup = [[0,0,0,1,0,0,0,0,0],[0,0,1,1,0,0,0,0,0]] ∧
    ∀ s, s ≤ 1 → ∀ c, c ≤ 8 →
      get_lookup s c =
        if s = 0 then (if c = 3 then 1 else 0)
        else (if c = 2 ∨ c = 3 then 1 else 0) := by
  constructor
  · rfl
  · intro s hs c hc
    interval_cases s <;> interval_cases c <;> rfl

/-- C4 witness: an alive cell with 3 neighbors. -/
theorem claim_C4_witness :
    get_lookup 1 3 =
      if (1 : Nat) = 0 then (if (3 : Nat) = 3 then 1 else 0)
      else (if (3 : Nat) = 2 ∨ (3 : Nat) = 3 then 1 else 0) :=
  claim_C4.2 1 (by decide) 3 (by decide)

/-- C5: `k` sequential calls of one generation each produce the same
buffer as a single call configured for `k` generations. -/
theorem claim_C5 (m n : Nat) (eb : List (List Nat)) (k : Nat) :
    Nat.iterate (fun g => run_iterations m n g 1) k eb = run_iterations m n eb k := by
  induction k generalizing eb with
  | zero => rfl
  | succ k ih =>
    rw [Function.iterate_succ_apply]
    exact ih (run_iteration m n eb)

/-- C6 counterexample: the grid `[[2]]` contains an entry other than 0
or 1, yet construction fails with the shape error, not the value error —
the two "exactly when" conditions of the claim overlap and shape wins. -/
theorem claim_C6_counterexample :
    construct (some (NDArray.mat [[2]])) = Except.error ConwayError.invalidShape ∧
    construct (some (NDArray.mat [[2]])) ≠ Except.error ConwayError.invalidValue ∧
    ¬((2 : Int) = 0 ∨ (2 : Int) = 1) := by
  refine ⟨rfl, ?_, by decide⟩
  intro hcon
  have hcon2 : (Except.error ConwayError.invalidShape : Except ConwayError Board) =
      Except.error ConwayError.invalidValue := hcon
  exact ConwayError.noConfusion (Except.error.inj hcon2)

/-- C6 (amended): on 2-d input, the shape check runs first —
`InvalidShapeError` exactly when a dimension is below 2;
`InvalidValueError` exactly when the shape is acceptable and some entry
is neither 0 nor 1; a grid passing both checks is accepted with the
input copied into the interior of the padded buffer. -/
theorem claim_C6 (rows : List (List Int))
    (hwf : ndWF (some (NDArray.mat rows)) = true) :
    (construct (some (NDArray.mat rows)) = Except.error ConwayError.invalidShape ↔
      rows.length < 2 ∨ (rows.headD []).length < 2) ∧
    (construct (some (NDArray.mat rows)) = Except.error ConwayError.invalidValue ↔
      2 ≤ rows.length ∧ 2 ≤ (rows.headD []).length ∧
        ¬(∀ v ∈ rows.flatten, v = 0 ∨ v = 1)) ∧
    (∀ b, construct (some (NDArray.mat rows)) = Except.ok b →
      b.m = rows.length ∧ b.n = (rows.headD []).length ∧
      ∀ r, r < b.m → ∀ c, c < b.n →
        cellAt b.expanded_board (r + 1) (c + 1) = ((rows.getD r []).getD c 0).toNat) := by
  have hwfb : rows.all (fun row => row.length == (rows.headD []).length) = true := hwf
  have hwf2 : ∀ row ∈ rows, row.length = (rows.headD []).length := by
    intro row hrow
    have hb := List.all_eq_true.mp hwfb row hrow
    simpa using hb
  rw [construct_mat_eq]
  by_cases h1 : rows.length < 2 ∨ (rows.headD []).length < 2
  · rw [if_pos h1]
    refine ⟨⟨fun _ => h1, fun _ => rfl⟩, ⟨?_, ?_⟩, ?_⟩
    · intro hcon
      exact ConwayError.noConfusion (Except.error.inj hcon)
    · intro hcon
      omega
    · intro b hb
      exact Except.noConfusion hb
  · rw [if_neg h1]
    by_cases h2 : ∀ v ∈ rows.flatten, v = 0 ∨ v = 1
    · rw [if_neg (not_not_intro h2)]
      refine ⟨⟨?_, ?_⟩, ⟨?_, ?_⟩, ?_⟩
      · intro hcon
        exact Except.noConfusion hcon
      · intro hcon
        exact absurd hcon h1
      · intro hcon
        exact Except.noConfusion hcon
      · intro hcon
        exact absurd h2 hcon.2.2
      · intro b hb
        injection hb with hbe
        subst hbe
        refine ⟨rfl, rfl, ?_⟩
        intro r hr c hc
        have hr2 : r < rows.length := hr
        have hc2 : c < (rows.headD []).length := hc
        have hrowmem : rows.getD r [] ∈ rows := getD_mem_of_lt rows r [] hr2
        have hlen := hwf2 _ hrowmem
        have hcell := cellAt_mkExpanded rows (rows.headD []).length (r + 1) (c + 1)
        simp only [Nat.add_sub_cancel] at hcell
        rw [hcell, if_pos (by omega)]
    · rw [if_pos h2]
      refine ⟨⟨?_, ?_⟩, ⟨?_, ?_⟩, ?_⟩
      · intro hcon
        exact ConwayError.noConfusion (Except.error.inj hcon)
      · intro hcon
        exact absurd hcon h1
      · intro _
        exact ⟨by omega, by omega, h2⟩
      · intro _
        rfl
      · intro b hb
        exact Except.noConfusion hb

/-- C6 witness: a valid 2×2 grid does not trigger the shape error. -/
theorem claim_C6_witness :
    construct (some (NDArray.mat [[0,1],[1,0]])) =
        Except.error ConwayError.invalidShape ↔
      ([[0,1],[1,0]] : List (List Int)).length < 2 ∨
        (([[0,1],[1,0]] : List (List Int)).headD []).length < 2 :=
  (claim_C6 [[0,1],[1,0]] rfl).1

/-- C7 counterexample: the one-dimensional binary array `[0, 1]` passes
all three named checks and is rejected only by the late `IndexError` of
the interior-copy assignment — not by `InvalidTypeError` or
`InvalidShapeError` as the claim states. -/
theorem claim_C7_counterexample :
    construct (some (NDArray.vec [0, 1])) = Except.error ConwayError.indexError ∧
    ConwayError.indexError ≠ ConwayError.invalidType ∧
    ConwayError.indexError ≠ ConwayError.invalidShape :=
  ⟨rfl, by decide, by decide⟩

/-- C7 (amended): construction still never produces a Board from a
non-2-d input — a non-ndarray gets `InvalidTypeError` and rank-0/rank-1
ndarrays always error (though a binary-valued one fails with the
uncategorized `IndexError` rather than a named validation error) — so
every successfully constructed Board comes from a genuinely
two-dimensional grid, of validated shape and values. -/
theorem claim_C7 :
    construct none = Except.error ConwayError.invalidType ∧
    ∀ inp b, construct inp = Except.ok b →
      ∃ rows, inp = some (NDArray.mat rows) ∧ 2 ≤ rows.length ∧
        2 ≤ (rows.headD []).length ∧ ∀ v ∈ rows.flatten, v = 0 ∨ v = 1 := by
  refine ⟨rfl, ?_⟩
  intro inp b h
  cases inp with
  | none => exact Except.noConfusion h
  | some a =>
    obtain ⟨rows, rfl⟩ := construct_ok_mat a b h
    rw [construct_mat_eq] at h
    split at h
    · exact Except.noConfusion h
    · split at h
      · exact Except.noConfusion h
      · rename_i hsh hvl
        exact ⟨rows, rfl, by omega, by omega, not_not.mp hvl⟩

/-- C7 witness: the accepted 2×2 board indeed comes from a 2-d grid. -/
theorem claim_C7_witness :
    ∃ rows, (some (NDArray.mat [[0,1],[1,0]]) : Option NDArray) =
        some (NDArray.mat rows) ∧ 2 ≤ rows.length ∧
      2 ≤ (rows.headD []).length ∧ ∀ v ∈ rows.flatten, v = 0 ∨ v = 1 :=
  claim_C7.2 (some (NDArray.mat [[0,1],[1,0]]))
    (Board.mk 2 2 (mkExpanded [[0,1],[1,0]] 2)) rfl

/-- C8: entry `[r][c][i][j]` of the all-neighbors view is exactly the
padded-buffer cell `(r+i, c+j)` — the 3×3 block at padded rows
`r..r+3` and columns `c..c+3` — and for every logical `(r, c)` those
indices lie strictly inside the `(m+2) × (n+2)` buffer, so no bounds
failure is possible. -/
theorem claim_C8 (m n : Nat) (eb : List (List Nat)) (r : Nat) (hr : r < m)
    (c : Nat) (hc : c < n) (i : Nat) (hi : i < 3) (j : Nat) (hj : j < 3) :
    neighborEntry m n eb r c i j = cellAt eb (r + i) (c + j) ∧
    r + i < m + 2 ∧ c + j < n + 2 := by
  refine ⟨?_, by omega, by omega⟩
  unfold neighborEntry get_all_neighbors
  rw [getD_map_range, if_pos hr, getD_map_range, if_pos hc,
    getD_map_range, if_pos hi, getD_map_range, if_pos hj]

/-- C8 witness: the center entry of the window of cell `(1, 0)` on the
blinker board. -/
theorem claim_C8_witness :
    neighborEntry 3 3
        [[0,0,0,0,0],[0,0,1,0,0],[0,0,1,0,0],[0,0,1,0,0],[0,0,0,0,0]] 1 0 1 1 =
      cellAt [[0,0,0,0,0],[0,0,1,0,0],[0,0,1,0,0],[0,0,1,0,0],[0,0,0,0,0]] 2 1 ∧
    2 < 5 ∧ 1 < 5 :=
  claim_C8 3 3 [[0,0,0,0,0],[0,0,1,0,0],[0,0,1,0,0],[0,0,1,0,0],[0,0,0,0,0]]
    1 (by decide) 0 (by decide) 1 (by decide) 1 (by decide)

/-- C9: running zero generations leaves the buffer — and hence the
logical board and its dimensions — exactly as it was. -/
theorem claim_C9 (m n : Nat) (eb : List (List Nat)) :
    run_iterations m n eb 0 = eb := rfl

/-- C10: a negative generation count makes `range(n)` empty, so the
call returns without error and without touching the buffer. -/
theorem claim_C10 (m n : Nat) (eb : List (List Nat)) (gens : Int)
    (hneg : gens < 0) : run_iterations_py m n eb gens = eb := by
  unfold run_iterations_py
  rw [Int.toNat_of_nonpos (by omega)]
  rfl

/-- C10 witness: `run_iterations(-1)` on a 2×2 board. -/
theorem claim_C10_witness :
    run_iterations_py 2 2 (mkExpanded [[0,1],[1,0]] 2) (-1) =
      mkExpanded [[0,1],[1,0]] 2 :=
  claim_C10 2 2 (mkExpanded [[0,1],[1,0]] 2) (-1) (by decide)

end Conway
